import Mathlib

/-!
Verification of the gclint analyzer (src/gclint.go): a shallow embedding of
its type classifiers, ancestor-context resolver and the three pattern
detectors, with theorems settling the specified properties.
-/

namespace Gclint

/-- Package path of the compiler IR package the analyzer targets
(constant irPkgPath in gclint.go). -/
def irPkgPath : String := "cmd/compile/internal/ir"

/-- The defining object of a named type: its package path (none models a
nil package, as for builtin types) and its name. -/
structure TypeName where
  pkg : Option String
  name : String
  deriving DecidableEq, Repr

/-- Resolved Go types, as the analyzer inspects them. invalid models a nil
or unresolved type descriptor; basic stands for any other type shape the
analyzer does not look into. -/
inductive GoType where
  | named (obj : TypeName)
  | pointer (elem : GoType)
  | slice (elem : GoType)
  | signature (params : List GoType) (results : List GoType) (variadic : Bool)
  | basic
  | invalid

/-- A resolved object from the type information (an entry of Uses or Defs).
isField records whether the object is a struct field; gclint never consults
it (the source notes its field check is imprecise). -/
structure Object where
  pkg : Option String
  name : String
  type : GoType
  isField : Bool

/-- isNamedObject from gclint.go: the object has a non-nil package with the
given path and carries the given name. -/
def isNamedObject (objPkg : Option String) (objName : String)
    (pkgPath name : String) : Bool :=
  match objPkg with
  | some p => p == pkgPath && objName == name
  | none => false

/-- isNamedType from gclint.go: the type is a named type whose defining
object matches the package path and name exactly. -/
def isNamedType : GoType → String → String → Bool
  | GoType.named obj, pkgPath, name => isNamedObject obj.pkg obj.name pkgPath name
  | _, _, _ => false

/-- isPtrToNamedType from gclint.go: a pointer whose pointee is the exact
named type. -/
def isPtrToNamedType (typ : GoType) (pkgPath name : String) : Bool :=
  match typ with
  | GoType.pointer elem => isNamedType elem pkgPath name
  | _ => false

/-- isPtrToFuncType from gclint.go. -/
def isPtrToFuncType (typ : GoType) : Bool := isPtrToNamedType typ irPkgPath "Func"

/-- isPtrToNameType from gclint.go. -/
def isPtrToNameType (typ : GoType) : Bool := isPtrToNamedType typ irPkgPath "Name"

/-- isNodeType from gclint.go. -/
def isNodeType (typ : GoType) : Bool := isNamedType typ irPkgPath "Node"

/-- Binary operators as far as the analyzer distinguishes them. -/
inductive Op where
  | eql
  | neq
  | other
  deriving DecidableEq, Repr

/-- Syntax nodes. Each node carries a numeric identity standing for Go
pointer identity (the front end allocates distinct nodes with distinct
ids); comparisons of nodes in the source compare these ids. The
constructors cover exactly the node shapes the analyzer dispatches on;
other covers every remaining kind, with a flag recording whether it is an
expression. -/
inductive Node where
  | mapType (id : Nat) (key val : Node)
  | binaryExpr (id : Nat) (op : Op) (x y : Node)
  | assignStmt (id : Nat) (lhs rhs : List Node)
  | callExpr (id : Nat) (fn : Node) (args : List Node) (hasEllipsis : Bool)
  | returnStmt (id : Nat) (results : List Node)
  | funcLit (id : Nat) (body : List Node)
  | funcDecl (id : Nat) (name : Node) (body : List Node)
  | selectorExpr (id : Nat) (x sel : Node)
  | ident (id : Nat)
  | other (id : Nat) (isExpr : Bool) (children : List Node)

/-- The identity of a node (models Go pointer identity). -/
def Node.id : Node → Nat
  | Node.mapType i _ _ => i
  | Node.binaryExpr i _ _ _ => i
  | Node.assignStmt i _ _ => i
  | Node.callExpr i _ _ _ => i
  | Node.returnStmt i _ => i
  | Node.funcLit i _ => i
  | Node.funcDecl i _ _ => i
  | Node.selectorExpr i _ _ => i
  | Node.ident i => i
  | Node.other i _ _ => i

/-- The source position of a node (n.Pos() in the source), identified with
the node id in this model. -/
def Node.pos (n : Node) : Nat := n.id

/-- Whether the node is an ast.Expr (the type assertion in run). MapType,
function literals and selector expressions are expressions in Go. -/
def Node.isExpr : Node → Bool
  | Node.mapType .. => true
  | Node.binaryExpr .. => true
  | Node.callExpr .. => true
  | Node.selectorExpr .. => true
  | Node.ident .. => true
  | Node.funcLit .. => true
  | Node.assignStmt .. => false
  | Node.returnStmt .. => false
  | Node.funcDecl .. => false
  | Node.other _ e _ => e

/-- A types.TypeAndValue: the resolved type, whether the expression is the
untyped nil case, and whether it is a value. A missing map entry is the
zero value: invalid type, not nil, not a value. -/
structure TypeAndValue where
  type : GoType
  isNil : Bool
  isValue : Bool

/-- The read-only type information for one compilation unit: Types keyed by
node identity, Uses and Defs keyed by identifier node identity. -/
structure Info where
  types : Nat → TypeAndValue
  uses : Nat → Option Object
  defs : Nat → Option Object

/-- A diagnostic: source position plus message. -/
structure Diag where
  pos : Nat
  msg : String
  deriving DecidableEq, Repr

/-- Diagnostic message of the map-key detector. -/
def mapKeyMsg : String := "map with ir.Node key (likely change key type to *ir.Name)"

/-- Diagnostic message of the equality detector. -/
def compareMsg : String := "comparison of ir.Node values (replace with ir.Uses or ir.SameSource)"

/-- Diagnostic message of the assignment-flow detector. -/
def assignMsg : String := "*ir.Name assigned to ir.Node (maybe change destination to *ir.Name too)"

/-- isNameDefnField from gclint.go: a selector expression whose selected
identifier resolves, via Uses, to an object named Defn declared in the ir
package. The source notes this is imprecise: it does not check that the
object is a field of Name. -/
def isNameDefnField (n : Node) (info : Info) : Bool :=
  match n with
  | Node.selectorExpr _ _ sel =>
    match info.uses sel.id with
    | some obj => isNamedObject obj.pkg obj.name irPkgPath "Defn"
    | none => false
  | _ => false

/-- Body of funcScope from gclint.go, scanning nodes from the top of the
stack downward (here: the reversed stack front to back). none models the
abort when no enclosing function declaration or literal exists, or when a
declaration name has no recorded definition object. -/
def funcScopeAux (info : Info) : List Node → Option GoType
  | [] => none
  | n :: rest =>
    match n with
    | Node.funcLit i _ => some (info.types i).type
    | Node.funcDecl _ name _ =>
      match info.defs name.id with
      | some obj => some obj.type
      | none => none
    | _ => funcScopeAux info rest

/-- funcScope from gclint.go. -/
def funcScope (stack : List Node) (info : Info) : Option GoType :=
  funcScopeAux info stack.reverse

/-- The switch body of assignedToNode from gclint.go, over the expression
n (the stack top) and its parent (second from top); the full stack is kept
for the backward scan of the return case. none models every aborting path:
the explicit aborts on a missed positional match inside a call or return
parent, a failed type assertion (callee type not a signature, variadic
parameter not a slice), an out-of-range index, and the aborts inside
funcScope. -/
def assignedToNodeCore (info : Info) (stack : List Node) (n parent : Node) :
    Option Bool :=
  match parent with
  | Node.assignStmt _ lhs rhs =>
    match rhs.findIdx? (fun r => r.id == n.id) with
    | some i =>
      match lhs[i]? with
      | some lval =>
        if isNameDefnField lval info then some false
        else some (isNodeType (info.types lval.id).type)
      | none => none
    | none => some false
  | Node.callExpr _ fn args hasEllipsis =>
    let tv := info.types fn.id
    if !tv.isValue then some false
    else
      match tv.type with
      | GoType.signature params _ variadic =>
        let nparams := params.length
        match args.findIdx? (fun a => a.id == n.id) with
        | some i =>
          if variadic = true ∧ hasEllipsis = false ∧ nparams - 1 ≤ i then
            match params[nparams - 1]? with
            | some (GoType.slice elemT) => some (isNodeType elemT)
            | _ => none
          else
            match params[i]? with
            | some t => some (isNodeType t)
            | none => none
        | none => none
      | _ => none
  | Node.returnStmt _ results =>
    match funcScope stack info with
    | some (GoType.signature _ resultTypes _) =>
      match results.findIdx? (fun r => r.id == n.id) with
      | some i =>
        match resultTypes[i]? with
        | some t => some (isNodeType t)
        | none => none
      | none => none
    | _ => none
  | _ => some false

/-- assignedToNode from gclint.go. The top of the stack is the expression
in question, the second-from-top its parent; a stack too short to index
both aborts (none). -/
def assignedToNode (stack : List Node) (info : Info) : Option Bool :=
  match stack.reverse with
  | n :: parent :: _ => assignedToNodeCore info stack n parent
  | _ => none

/-- The parent kinds the resolver's switch handles with a dedicated case
(assignment, call, return); every other kind falls through to the final
return false of assignedToNode. -/
def parentKindHandled : Node → Bool
  | Node.assignStmt .. => true
  | Node.callExpr .. => true
  | Node.returnStmt .. => true
  | _ => false

/-- The MapType case of the switch in run. -/
def checkMapKey (info : Info) (n : Node) : List Diag :=
  match n with
  | Node.mapType _ key _ =>
    if isNodeType (info.types key.id).type then [⟨n.pos, mapKeyMsg⟩] else []
  | _ => []

/-- The BinaryExpr case of the switch in run. -/
def checkCompare (info : Info) (n : Node) : List Diag :=
  match n with
  | Node.binaryExpr _ op x y =>
    if op == Op.eql || op == Op.neq then
      let xtv := info.types x.id
      let ytv := info.types y.id
      if xtv.isNil || ytv.isNil then []
      else if isPtrToFuncType xtv.type || isPtrToFuncType ytv.type then []
      else if isNodeType xtv.type then [⟨n.pos, compareMsg⟩] else []
    else []
  | _ => []

/-- The flagAssign block of run: on an expression node that is a value of
pointer-to-Name type, consult the resolver; none propagates its abort. -/
def checkAssignFlow (info : Info) (stack : List Node) (n : Node) :
    Option (List Diag) :=
  if n.isExpr then
    let tv := info.types n.id
    if tv.isValue && isPtrToNameType tv.type then
      match assignedToNode stack info with
      | some true => some [⟨n.pos, assignMsg⟩]
      | some false => some []
      | none => none
    else some []
  else some []

/-- One push visit of the traversal callback in run: the switch cases in
order, then the flag-gated assignment check. -/
def visitNode (flagAssign : Bool) (info : Info) (stack : List Node)
    (n : Node) : Option (List Diag) :=
  let ds := checkMapKey info n ++ checkCompare info n
  if flagAssign then
    match checkAssignFlow info stack n with
    | some ds2 => some (ds ++ ds2)
    | none => none
  else some ds

/-- One traversal event as delivered by the external inspector: the node, a
push or pop flag, and the ancestor stack with the node on top. -/
structure Event where
  node : Node
  push : Bool
  stack : List Node

/-- run from gclint.go over the event sequence the inspector delivers: pop
events are ignored, push events dispatch the detectors; diagnostics
accumulate in visit order, and an abort stops the unit. -/
def runAnalyzer (flagAssign : Bool) (info : Info) : List Event → Option (List Diag)
  | [] => some []
  | e :: es =>
    if e.push then
      match visitNode flagAssign info e.stack e.node with
      | some ds =>
        match runAnalyzer flagAssign info es with
        | some rest => some (ds ++ rest)
        | none => none
      | none => none
    else runAnalyzer flagAssign info es

/-- The interface type ir.Node. -/
def nodeIfaceType : GoType := GoType.named ⟨some irPkgPath, "Node"⟩

/-- The concrete pointer type *ir.Name. -/
def ptrNameType : GoType := GoType.pointer (GoType.named ⟨some irPkgPath, "Name"⟩)

/-- The concrete pointer type *ir.Func. -/
def ptrFuncType : GoType := GoType.pointer (GoType.named ⟨some irPkgPath, "Func"⟩)

/-- Concrete type information used by the witnesses: node 1 is a value of
pointer-to-Name type, node 2 a value of the interface type Node, node 3 an
untyped nil, node 9 a value of pointer-to-Func type, node 10 a value of a
variadic signature whose single parameter is a slice of the interface
type. -/
def infoW : Info where
  types := fun i =>
    if i == 1 then ⟨ptrNameType, false, true⟩
    else if i == 2 then ⟨nodeIfaceType, false, true⟩
    else if i == 3 then ⟨GoType.basic, true, true⟩
    else if i == 9 then ⟨ptrFuncType, false, true⟩
    else if i == 10 then ⟨GoType.signature [GoType.slice nodeIfaceType] [] true, false, true⟩
    else ⟨GoType.invalid, false, false⟩
  uses := fun _ => none
  defs := fun _ => none

/-- Concrete expression: an identifier of pointer-to-Name type under
infoW. -/
def exprC1 : Node := Node.ident 1

/-- Concrete parent of a kind the resolver's switch does not handle (for
example a parenthesized expression), containing the identifier. -/
def parentC1 : Node := Node.other 8 true [Node.ident 1]

/-- Concrete variadic callee of the signature recorded at node 10 of
infoW. -/
def fnVariadic : Node := Node.ident 10

/-- Concrete call passing the pointer-to-Name identifier into the variadic
slot without spread syntax. -/
def callW : Node := Node.callExpr 11 fnVariadic [Node.ident 1] false

/-- Concrete assignment of the pointer-to-Name identifier to a slot of the
interface type. -/
def assignW : Node := Node.assignStmt 12 [Node.ident 2] [Node.ident 1]

/-- Concrete call whose callee is not a value (a type conversion). -/
def callConv : Node := Node.callExpr 13 (Node.ident 14) [Node.ident 1] false

/-- Witness object: named Defn in the ir package, deliberately not a
field. -/
def defnObj : Object := ⟨some irPkgPath, "Defn", GoType.basic, false⟩

/-- Type information whose Uses resolves identifier 20 to defnObj. -/
def infoDefn : Info where
  types := infoW.types
  uses := fun i => if i == 20 then some defnObj else none
  defs := fun _ => none

/-- The exact-nominal-match characterization of isNamedType: it holds
precisely for the named type whose object has the given package path and
name. -/
theorem isNamedType_iff (t : GoType) (pkgPath name : String) :
    isNamedType t pkgPath name = true ↔ t = GoType.named ⟨some pkgPath, name⟩ := by
  cases t with
  | named obj =>
    cases obj with
    | mk pkg nm =>
      cases pkg with
      | none => simp [isNamedType, isNamedObject]
      | some p => simp [isNamedType, isNamedObject, and_comm]
  | pointer e => simp [isNamedType]
  | slice e => simp [isNamedType]
  | signature p r v => simp [isNamedType]
  | basic => simp [isNamedType]
  | invalid => simp [isNamedType]

/-- Unfolding of assignedToNode when the stack exposes the node and its
parent. -/
theorem assignedToNode_core (stack rest : List Node) (info : Info)
    (n parent : Node) (h : stack.reverse = n :: parent :: rest) :
    assignedToNode stack info = assignedToNodeCore info stack n parent := by
  unfold assignedToNode
  rw [h]

/-- C7: the type classifier predicates are total functions that return
false on nil, unresolved and unrelated type descriptors; each returns true
exactly on the nominal match with the named type declared in the target
package (as a pointer to it, for the pointer check). -/
theorem classifiers_exact_nominal (t : GoType) (pkgPath name : String) :
    (isNamedType t pkgPath name = true ↔ t = GoType.named ⟨some pkgPath, name⟩)
    ∧ (isPtrToNamedType t pkgPath name = true ↔
        t = GoType.pointer (GoType.named ⟨some pkgPath, name⟩))
    ∧ isNamedType GoType.invalid pkgPath name = false
    ∧ isPtrToNamedType GoType.invalid pkgPath name = false
    ∧ isNodeType GoType.invalid = false
    ∧ isPtrToNameType GoType.invalid = false
    ∧ isPtrToFuncType GoType.invalid = false := by
  refine ⟨isNamedType_iff t pkgPath name, ?_, rfl, rfl, rfl, rfl, rfl⟩
  cases t with
  | pointer e => simp [isPtrToNamedType, isNamedType_iff]
  | named obj => simp [isPtrToNamedType]
  | slice e => simp [isPtrToNamedType]
  | signature p r v => simp [isPtrToNamedType]
  | basic => simp [isPtrToNamedType]
  | invalid => simp [isPtrToNamedType]

/-- C8: the analysis is a deterministic pure function of the traversal
events, the type information and the configuration flag: two runs over the
same inputs produce identical diagnostic sequences in identical order. -/
theorem analyzer_deterministic (flagAssign : Bool) (info : Info)
    (events : List Event) :
    runAnalyzer flagAssign info events = runAnalyzer flagAssign info events := rfl

/-- C3: on a map-type node whose key type matches the interface type Node,
the map-key detector emits exactly one diagnostic, anchored at the
map-type node's position, whatever the value type. -/
theorem mapKey_one_diag (i : Nat) (key val : Node) (info : Info)
    (h : isNodeType (info.types key.id).type = true) :
    checkMapKey info (Node.mapType i key val) =
      [⟨(Node.mapType i key val).pos, mapKeyMsg⟩] := by
  simp [checkMapKey, h]

/-- Witness for mapKey_one_diag: a concrete map type keyed by the
interface type, with an arbitrary value expression. -/
theorem mapKey_one_diag_w :
    isNodeType ((infoW.types (Node.ident 2).id).type) = true ∧
    checkMapKey infoW (Node.mapType 5 (Node.ident 2) (Node.ident 7)) =
      [⟨(Node.mapType 5 (Node.ident 2) (Node.ident 7)).pos, mapKeyMsg⟩] :=
  ⟨rfl, mapKey_one_diag 5 (Node.ident 2) (Node.ident 7) infoW rfl⟩

/-- C2: for an equality or inequality comparison with both operand types
non-nil and neither pointer-to-Func, the equality detector emits a
diagnostic iff the left operand's type matches the interface type Node;
and an untyped-nil operand on either side suppresses the diagnostic. -/
theorem compare_flags_iff_left_node (i : Nat) (op : Op) (x y : Node)
    (info : Info) (hop : op = Op.eql ∨ op = Op.neq) :
    ((info.types x.id).isNil = false → (info.types y.id).isNil = false →
      isPtrToFuncType (info.types x.id).type = false →
      isPtrToFuncType (info.types y.id).type = false →
      checkCompare info (Node.binaryExpr i op x y) =
        (if isNodeType (info.types x.id).type then
          [⟨(Node.binaryExpr i op x y).pos, compareMsg⟩] else []))
    ∧ (((info.types x.id).isNil = true ∨ (info.types y.id).isNil = true) →
        checkCompare info (Node.binaryExpr i op x y) = []) := by
  constructor
  · intro h1 h2 h3 h4
    rcases hop with h | h <;> subst h <;> simp [checkCompare, h1, h2, h3, h4]
  · intro h
    rcases hop with h5 | h5 <;> subst h5 <;> rcases h with h | h <;>
      simp [checkCompare, h]

/-- Witness for compare_flags_iff_left_node: a concrete comparison of an
interface-typed left operand against a pointer-to-Name right operand. -/
theorem compare_flags_iff_left_node_w :
    checkCompare infoW (Node.binaryExpr 6 Op.eql (Node.ident 2) (Node.ident 1)) =
      (if isNodeType ((infoW.types (Node.ident 2).id).type) then
        [⟨(Node.binaryExpr 6 Op.eql (Node.ident 2) (Node.ident 1)).pos, compareMsg⟩]
      else []) :=
  (compare_flags_iff_left_node 6 Op.eql (Node.ident 2) (Node.ident 1) infoW
    (Or.inl rfl)).1 rfl rfl rfl rfl

/-- C6: a comparison where either operand's type is pointer-to-Func is
never flagged, whichever side carries that type and whatever the left
operand's type. -/
theorem compare_skips_ptr_func (i : Nat) (op : Op) (x y : Node) (info : Info)
    (h : isPtrToFuncType (info.types x.id).type = true ∨
         isPtrToFuncType (info.types y.id).type = true) :
    checkCompare info (Node.binaryExpr i op x y) = [] := by
  cases op <;> rcases h with h | h <;> simp [checkCompare, h]

/-- Witness for compare_skips_ptr_func: a comparison whose left operand is
pointer-to-Func typed and whose right operand has the interface type. -/
theorem compare_skips_ptr_func_w :
    isPtrToFuncType ((infoW.types (Node.ident 9).id).type) = true ∧
    checkCompare infoW (Node.binaryExpr 4 Op.eql (Node.ident 9) (Node.ident 2)) = [] :=
  ⟨rfl, compare_skips_ptr_func 4 Op.eql (Node.ident 9) (Node.ident 2) infoW (Or.inl rfl)⟩

/-- C1 counterexample: a visit of a pointer-to-Name-typed value expression
whose parent is of a kind the resolver's switch does not handle. The claim
says the resolver must abort; the code instead silently returns false (the
switch falls through to the final return false), and the visit completes
with no diagnostic and no abort. -/
theorem resolver_silent_false_on_other_parent :
    (infoW.types exprC1.id).isValue = true ∧
    isPtrToNameType (infoW.types exprC1.id).type = true ∧
    parentKindHandled parentC1 = false ∧
    assignedToNode [parentC1, exprC1] infoW = some false ∧
    visitNode true infoW [parentC1, exprC1] exprC1 = some [] :=
  ⟨rfl, rfl, rfl, rfl, rfl⟩

/-- C1 (amended): for a parent of a kind other than assignment, call or
return, and for a right-hand-side miss inside an assignment parent, the
resolver silently returns false; it aborts only when the expression cannot
be found among the arguments of a call parent whose callee is a value of
signature type, or among the results of a return parent. -/
theorem resolver_abort_only_call_return (stack rest : List Node) (info : Info)
    (n parent : Node) (hstack : stack.reverse = n :: parent :: rest) :
    (parentKindHandled parent = false → assignedToNode stack info = some false)
    ∧ (∀ aid lhs rhs, parent = Node.assignStmt aid lhs rhs →
        rhs.findIdx? (fun r => r.id == n.id) = none →
        assignedToNode stack info = some false)
    ∧ (∀ cid fn args el params results variadic,
        parent = Node.callExpr cid fn args el →
        (info.types fn.id).isValue = true →
        (info.types fn.id).type = GoType.signature params results variadic →
        args.findIdx? (fun a => a.id == n.id) = none →
        assignedToNode stack info = none)
    ∧ (∀ rid results, parent = Node.returnStmt rid results →
        results.findIdx? (fun r => r.id == n.id) = none →
        assignedToNode stack info = none) := by
  rw [assignedToNode_core stack rest info n parent hstack]
  refine ⟨?_, ?_, ?_, ?_⟩
  · intro hk
    cases parent <;> simp_all [parentKindHandled, assignedToNodeCore]
  · intro aid lhs rhs hp hfind
    subst hp
    simp [assignedToNodeCore, hfind]
  · intro cid fn args el params results variadic hp hv hty hfind
    subst hp
    simp [assignedToNodeCore, hv, hty, hfind]
  · intro rid results hp hfind
    subst hp
    simp only [assignedToNodeCore, hfind]
    split <;> rfl

/-- Witness for resolver_abort_only_call_return, first conjunct: the
unhandled parent kind yields the silent false. -/
theorem resolver_abort_only_call_return_w :
    parentKindHandled parentC1 = false ∧
    assignedToNode [parentC1, exprC1] infoW = some false :=
  ⟨rfl, (resolver_abort_only_call_return [parentC1, exprC1] [] infoW exprC1
    parentC1 rfl).1 rfl⟩

/-- C4: inside a call parent with a value callee of signature type, when
the signature is variadic, the call has no spread syntax and the argument
sits at the last parameter position or beyond, the resolver checks the
element type of the variadic parameter's slice type; in every other
resolved case it checks the parameter type at the argument's position. -/
theorem call_variadic_elem_match (stack rest : List Node) (info : Info)
    (n fn : Node) (cid : Nat) (args : List Node) (el : Bool)
    (params results : List GoType) (variadic : Bool) (i : Nat)
    (hstack : stack.reverse = n :: Node.callExpr cid fn args el :: rest)
    (hv : (info.types fn.id).isValue = true)
    (hsig : (info.types fn.id).type = GoType.signature params results variadic)
    (hfind : args.findIdx? (fun a => a.id == n.id) = some i) :
    (∀ elemT, variadic = true → el = false → params.length - 1 ≤ i →
      params[params.length - 1]? = some (GoType.slice elemT) →
      assignedToNode stack info = some (isNodeType elemT))
    ∧ (∀ pT, (variadic = false ∨ el = true ∨ i < params.length - 1) →
      params[i]? = some pT →
      assignedToNode stack info = some (isNodeType pT)) := by
  rw [assignedToNode_core stack rest info n _ hstack]
  constructor
  · intro elemT hvar hel hle hslice
    simp [assignedToNodeCore, hv, hsig, hfind, hvar, hel, hle, hslice]
  · intro pT hcase hp
    rcases hcase with h | h | h
    · simp [assignedToNodeCore, hv, hsig, hfind, h, hp]
    · simp [assignedToNodeCore, hv, hsig, hfind, h, hp]
    · have h2 : ¬ (params.length - 1 ≤ i) := by omega
      simp [assignedToNodeCore, hv, hsig, hfind, h2, hp]

/-- Witness for call_variadic_elem_match: a pointer-to-Name argument
passed without spread into the variadic slot of a callee whose variadic
parameter is a slice of the interface type; the resolver matches the
element type and reports true. -/
theorem call_variadic_elem_match_w :
    assignedToNode [callW, Node.ident 1] infoW = some (isNodeType nodeIfaceType) :=
  (call_variadic_elem_match [callW, Node.ident 1] [] infoW (Node.ident 1)
    fnVariadic 11 [Node.ident 1] false [GoType.slice nodeIfaceType] [] true 0
    rfl rfl rfl rfl).1 nodeIfaceType rfl rfl (by decide) rfl

/-- C5: with the assignment detector enabled, a value expression of
pointer-to-Name type standing as a right-hand side of an assignment is
flagged exactly when its positional left-hand-side slot has the interface
type — unless that slot is a selector resolving to the Defn backlink
field, in which case the resolver returns false and no diagnostic is
emitted. -/
theorem assign_flow_flags_unless_defn (stack rest : List Node) (info : Info)
    (n : Node) (aid : Nat) (lhs rhs : List Node) (i : Nat) (lval : Node)
    (hstack : stack.reverse = n :: Node.assignStmt aid lhs rhs :: rest)
    (hexpr : n.isExpr = true)
    (hv : (info.types n.id).isValue = true)
    (hp : isPtrToNameType (info.types n.id).type = true)
    (hfind : rhs.findIdx? (fun r => r.id == n.id) = some i)
    (hlhs : lhs[i]? = some lval) :
    (isNameDefnField lval info = false →
      checkAssignFlow info stack n =
        some (if isNodeType (info.types lval.id).type then
          [⟨n.pos, assignMsg⟩] else []))
    ∧ (isNameDefnField lval info = true →
        assignedToNode stack info = some false ∧
        checkAssignFlow info stack n = some []) := by
  have hres : assignedToNode stack info =
      (if isNameDefnField lval info then some false
       else some (isNodeType (info.types lval.id).type)) := by
    rw [assignedToNode_core stack rest info n _ hstack]
    simp [assignedToNodeCore, hfind, hlhs]
  constructor
  · intro hd
    rw [hd] at hres
    simp only [Bool.false_eq_true, if_false] at hres
    cases hN : isNodeType (info.types lval.id).type <;>
      simp [checkAssignFlow, hexpr, hv, hp, hres, hN]
  · intro hd
    rw [hd] at hres
    simp only [if_true] at hres
    exact ⟨hres, by simp [checkAssignFlow, hexpr, hv, hp, hres]⟩

/-- Witness for assign_flow_flags_unless_defn: the pointer-to-Name
identifier assigned to an interface-typed left-hand slot is flagged at its
own position. -/
theorem assign_flow_flags_unless_defn_w :
    checkAssignFlow infoW [assignW, Node.ident 1] (Node.ident 1) =
      some (if isNodeType ((infoW.types (Node.ident 2).id).type) then
        [⟨(Node.ident 1).pos, assignMsg⟩] else []) :=
  (assign_flow_flags_unless_defn [assignW, Node.ident 1] [] infoW (Node.ident 1)
    12 [Node.ident 2] [Node.ident 1] 0 (Node.ident 2) rfl rfl rfl rfl rfl rfl).1 rfl

/-- C9: for a call parent whose callee expression does not resolve to a
value (a type conversion or a builtin), the resolver returns false without
aborting, and the assignment-flow check emits no diagnostic for the
argument. -/
theorem call_nonvalue_returns_false (stack rest : List Node) (info : Info)
    (n fn : Node) (cid : Nat) (args : List Node) (el : Bool)
    (hstack : stack.reverse = n :: Node.callExpr cid fn args el :: rest)
    (hv : (info.types fn.id).isValue = false) :
    assignedToNode stack info = some false ∧
    checkAssignFlow info stack n = some [] := by
  have hres : assignedToNode stack info = some false := by
    rw [assignedToNode_core stack rest info n _ hstack]
    simp [assignedToNodeCore, hv]
  refine ⟨hres, ?_⟩
  cases he : n.isExpr
  · simp [checkAssignFlow, he]
  · cases hc : ((info.types n.id).isValue && isPtrToNameType (info.types n.id).type) <;>
      simp [checkAssignFlow, he, hc, hres]

/-- Witness for call_nonvalue_returns_false: an argument of a call whose
callee has no recorded value (a conversion). -/
theorem call_nonvalue_returns_false_w :
    assignedToNode [callConv, Node.ident 1] infoW = some false ∧
    checkAssignFlow infoW [callConv, Node.ident 1] (Node.ident 1) = some [] :=
  call_nonvalue_returns_false [callConv, Node.ident 1] [] infoW (Node.ident 1)
    (Node.ident 14) 13 [Node.ident 1] false rfl rfl

/-- C10: the Defn exemption holds for every selector whose selected
identifier resolves to any object named Defn in the ir package — the
object's field-ness is never consulted — and an assignment whose matched
left-hand slot is such a selector always makes the resolver return
false. -/
theorem defn_exemption_any_object (sid : Nat) (x sel : Node) (info : Info)
    (obj : Object) (h : info.uses sel.id = some obj) :
    (isNameDefnField (Node.selectorExpr sid x sel) info = true ↔
      (obj.pkg = some irPkgPath ∧ obj.name = "Defn"))
    ∧ (∀ stack rest n aid lhs rhs i,
        stack.reverse = n :: Node.assignStmt aid lhs rhs :: rest →
        rhs.findIdx? (fun r => r.id == n.id) = some i →
        lhs[i]? = some (Node.selectorExpr sid x sel) →
        obj.pkg = some irPkgPath → obj.name = "Defn" →
        assignedToNode stack info = some false) := by
  have hiff : isNameDefnField (Node.selectorExpr sid x sel) info = true ↔
      (obj.pkg = some irPkgPath ∧ obj.name = "Defn") := by
    rcases obj with ⟨pkg, nm, ty, fld⟩
    cases pkg <;> simp [isNameDefnField, h, isNamedObject]
  refine ⟨hiff, ?_⟩
  intro stack rest n aid lhs rhs i hstack hfind hlhs hpkg hnm
  have hd : isNameDefnField (Node.selectorExpr sid x sel) info = true :=
    hiff.mpr ⟨hpkg, hnm⟩
  rw [assignedToNode_core stack rest info n _ hstack]
  simp [assignedToNodeCore, hfind, hlhs, hd]

/-- Witness for defn_exemption_any_object: a selector resolving to a
Defn-named object that is not a field is still exempted. -/
theorem defn_exemption_any_object_w :
    defnObj.isField = false ∧
    isNameDefnField (Node.selectorExpr 21 (Node.ident 22) (Node.ident 20)) infoDefn = true :=
  ⟨rfl, (defn_exemption_any_object 21 (Node.ident 22) (Node.ident 20) infoDefn
    defnObj rfl).1.mpr ⟨rfl, rfl⟩⟩

end Gclint
